import Mathlib

/-
Verification of the SimpleVector dynamic-array container
(src/simple-vector/simple_vector.h) against its specification.

The container is shallowly embedded: the owned raw buffer becomes a list
whose length is the allocated slot count, machine size_t becomes Nat
(no operation here can overflow a 64-bit size in a way the claims touch,
and the source never subtracts below zero on the paths modelled), and the
checked accessor returns Except.  The STL algorithms the source calls
(std::copy, std::move over a range, std::copy_backward, std::move_backward,
std::fill, std::generate) become explicit index-by-index loops that follow
the processing direction of the C++ algorithm, because two of the calls
run over overlapping ranges of one buffer and the direction is load
bearing there.
-/

set_option linter.unusedSectionVars false

namespace SimpleVectorModel

variable {T : Type} [Inhabited T]

/-- Forward element-by-element copy of n slots from src (starting at index
s) into dst (starting at index d), reading each slot from src with a
default for out-of-range reads.  Models std::copy / range std::move from
one buffer into a DIFFERENT buffer, where src never changes while the loop
runs.  Also models std::copy_backward and std::move_backward between two
different buffers: with disjoint storage the processing direction cannot
be observed, only the final slot contents, which are the same. -/
def copyFwd (src : List T) (s : Nat) (dst : List T) (d : Nat) : Nat → List T
  | 0 => dst
  | n + 1 => copyFwd src (s + 1) (dst.set d (src.getD s default)) (d + 1) n

/-- Back-to-front copy of n slots inside ONE buffer: models
std::copy_backward(first, last, dlast) and std::move_backward on
overlapping ranges of the same storage, exactly as the C++ algorithm runs:
the slot at dlast-1 receives the value at last-1, then both cursors step
down.  Each read happens before any later write can touch that slot, which
is the overlap-correctness argument of the source. -/
def copyBwdSelf (buf : List T) (last dlast : Nat) : Nat → List T
  | 0 => buf
  | n + 1 =>
      copyBwdSelf (buf.set (dlast - 1) (buf.getD (last - 1) default))
        (last - 1) (dlast - 1) n

/-- Front-to-back copy inside ONE buffer: models the range
std::move(first, last, dest) call of Erase, which shifts a tail of the
buffer one slot toward the front.  The slot at d receives the value at s,
then both cursors step up; every read happens before the loop writes that
slot. -/
def copyFwdSelf (buf : List T) (s d : Nat) : Nat → List T
  | 0 => buf
  | n + 1 => copyFwdSelf (buf.set d (buf.getD s default)) (s + 1) (d + 1) n

/-- Writes the value x into n consecutive slots of buf starting at index d.
Models std::fill and the explicit default-value loops of Resize; also
models the std::generate call of the sized constructor, whose generator
always returns a default-constructed value. -/
def fillFwd (buf : List T) (d : Nat) (x : T) : Nat → List T
  | 0 => buf
  | n + 1 => fillFwd (buf.set d x) (d + 1) x n

/-- The first n slot values of a buffer, in index order.  Used to read the
live element sequence of a container. -/
def readN (buf : List T) : Nat → List T
  | 0 => []
  | n + 1 => readN buf n ++ [buf.getD n default]

/-- Modelled from the spec: the raw buffer type ArrayPtr of array_ptr.h is
not under src/ (only this header includes it).  Spec section 4.1: a Buffer
exclusively owns one contiguous block holding exactly the requested number
of element slots, gives unchecked indexed access, and can swap blocks with
another Buffer; it has no growth logic of its own.  The block is the list
data; its length is the allocated slot count. -/
structure ArrayPtr (T : Type) where
  data : List T

/-- Modelled from the spec: Buffer construction with a requested capacity
allocates exactly that many slots (capacity 0 means no allocation).  A
freshly allocated slot holds a default-constructed value; no claim settled
here reads a slot that was allocated and never written. -/
def ArrayPtr.create (n : Nat) : ArrayPtr T :=
  ⟨List.replicate n (default : T)⟩

/-- The container: one exclusively owned buffer, a logical size and a
recorded capacity, exactly the three data members of the C++ class. -/
structure SimpleVector (T : Type) where
  items_ : ArrayPtr T
  size_ : Nat
  capacity_ : Nat

/-- The ReserveProxyObj value class: wraps one requested capacity. -/
structure ReserveProxyObj where
  capacity_ : Nat

/-- Member ReserveCapasity() of ReserveProxyObj (the spelling is the
spelling of the source). -/
def ReserveProxyObj.ReserveCapasity (r : ReserveProxyObj) : Nat :=
  r.capacity_

/-- The free function Reserve(size_t): wraps the requested capacity into a
ReserveProxyObj.  Named ReserveFree here because the member function
SimpleVector::Reserve keeps the name Reserve. -/
def ReserveFree (n : Nat) : ReserveProxyObj :=
  ⟨n⟩

namespace SimpleVector

/-- The default constructor: all members take their default initializers,
so the container is empty with no allocation. -/
def mkEmpty : SimpleVector T :=
  { items_ := ⟨[]⟩, size_ := 0, capacity_ := 0 }

/-- GetSize(). -/
def GetSize (v : SimpleVector T) : Nat :=
  v.size_

/-- GetCapacity(). -/
def GetCapacity (v : SimpleVector T) : Nat :=
  v.capacity_

/-- IsEmpty(). -/
def IsEmpty (v : SimpleVector T) : Bool :=
  decide (v.size_ = 0)

/-- operator[]: unchecked read of slot index (the precondition index < size
is asserted in the source; out-of-range reads are undefined behavior and
here read the default value). -/
def elemAt (v : SimpleVector T) (index : Nat) : T :=
  v.items_.data.getD index default

/-- The live element sequence of the container: the slot values at logical
indices 0 up to size. -/
def elems (v : SimpleVector T) : List T :=
  readN v.items_.data v.size_

/-- The error surface of the checked accessor: the std::out_of_range throw
carries no structured data beyond its kind. -/
inductive AtError where
  | outOfRange
deriving DecidableEq

/-- At(index): throws std::out_of_range when index >= GetSize(), otherwise
returns the element at index.  The member reads the container and never
writes it, so in this pure model it returns only the outcome. -/
def At (v : SimpleVector T) (index : Nat) : Except AtError T :=
  if v.GetSize ≤ index then Except.error AtError.outOfRange
  else Except.ok (v.items_.data.getD index default)

/-- SimpleVector(size_t size): allocates exactly size slots, sets size and
capacity to size, then std::generate writes a default-constructed value
into every live slot. -/
def fromSize (n : Nat) : SimpleVector T :=
  { items_ := ⟨fillFwd (ArrayPtr.create n : ArrayPtr T).data 0 (default : T) n⟩,
    size_ := n, capacity_ := n }

/-- SimpleVector(size_t size, const Type and value): allocates exactly size
slots, sets size and capacity to size, then std::fill writes value into
every live slot. -/
def fromSizeValue (n : Nat) (value : T) : SimpleVector T :=
  { items_ := ⟨fillFwd (ArrayPtr.create n : ArrayPtr T).data 0 value n⟩,
    size_ := n, capacity_ := n }

/-- SimpleVector(std::initializer_list): allocates exactly as many slots as
the list has, sets size and capacity to that count, then std::copy writes
the listed values in order. -/
def fromList (init : List T) : SimpleVector T :=
  { items_ := ⟨copyFwd init 0 (ArrayPtr.create init.length : ArrayPtr T).data 0 init.length⟩,
    size_ := init.length, capacity_ := init.length }

/-- The copy constructor, translated member initializer by member
initializer: the new buffer is allocated with other.GetSize() slots, size_
is set to other.GetSize(), capacity_ is set to other.GetCapacity(), and
std::copy writes the size_ live elements of other into the new buffer. -/
def copyCtor (other : SimpleVector T) : SimpleVector T :=
  { items_ := ⟨copyFwd other.items_.data 0
      (ArrayPtr.create other.GetSize : ArrayPtr T).data 0 other.GetSize⟩,
    size_ := other.GetSize,
    capacity_ := other.GetCapacity }

/-- The move constructor: items_ takes the buffer of other (the ArrayPtr
move assignment transfers the block and, modelled from the spec because
array_ptr.h is not under src/, leaves the source with no buffer), and
std::exchange moves size_ and capacity_ over while writing 0 back.  The
result pair is (the constructed container, what remains of the source). -/
def moveCtor (other : SimpleVector T) : SimpleVector T × SimpleVector T :=
  ({ items_ := other.items_, size_ := other.size_, capacity_ := other.capacity_ },
   { items_ := ⟨[]⟩, size_ := 0, capacity_ := 0 })

/-- Clear(): sets size_ to 0 and touches nothing else. -/
def Clear (v : SimpleVector T) : SimpleVector T :=
  { v with size_ := 0 }

/-- Resize(new_size), statement for statement: returns unchanged when
new_size equals size_.  The first conditional (shrinking) overwrites the
slots from new_size through size_-1 with default-constructed values,
touching only the buffer.  The second conditional (new_size beyond
capacity_) allocates max(new_size, 2 * capacity_) slots, the range
std::move carries the size_ old slots over, the index loop writes
default-constructed values into slots size_ through new_size-1, the
buffers swap and capacity_ is updated.  Both conditionals read size_ and
capacity_, which no earlier statement of the body has changed.  Finally
size_ becomes new_size unconditionally.  Note that when size_ < new_size
<= capacity_ neither conditional fires and the buffer is untouched. -/
def Resize (v : SimpleVector T) (new_size : Nat) : SimpleVector T :=
  if new_size = v.size_ then v
  else
    let buf1 := if new_size < v.size_
      then fillFwd v.items_.data new_size (default : T) (v.size_ - new_size)
      else v.items_.data
    if v.capacity_ < new_size then
      { items_ := ⟨fillFwd
          (copyFwd buf1 0 (ArrayPtr.create (max new_size (2 * v.capacity_)) : ArrayPtr T).data
            0 v.size_)
          v.size_ (default : T) (new_size - v.size_)⟩,
        size_ := new_size,
        capacity_ := max new_size (2 * v.capacity_) }
    else
      { items_ := ⟨buf1⟩, size_ := new_size, capacity_ := v.capacity_ }

/-- Member Reserve(size_t new_capacity): returns unchanged when
new_capacity <= capacity_; otherwise allocates new_capacity slots, the
index loop copies the size_ live elements over, the buffers swap, and
capacity_ becomes new_capacity (size_ is untouched). -/
def Reserve (v : SimpleVector T) (new_capacity : Nat) : SimpleVector T :=
  if new_capacity ≤ v.capacity_ then v
  else
    { items_ := ⟨copyFwd v.items_.data 0
        (ArrayPtr.create new_capacity : ArrayPtr T).data 0 v.size_⟩,
      size_ := v.size_,
      capacity_ := new_capacity }

/-- SimpleVector(ReserveProxyObj): the body calls
Reserve(capacity_to_reserve.ReserveCapasity()).  Unqualified name lookup
inside a member function finds the member SimpleVector::Reserve before the
free function Reserve of the enclosing scope, so the call mutates the
instance under construction, whose members start at their default
initializers (the empty state). -/
def fromReserveProxy (r : ReserveProxyObj) : SimpleVector T :=
  Reserve mkEmpty r.ReserveCapasity

/-- PushBack(const Type and item), branch for branch: with spare capacity
the value is written into slot size_ in place; otherwise a buffer of
max(1, 2 * capacity_) slots is allocated, std::copy moves the size_ live
elements over, the value lands in slot size_, the buffers swap and
capacity_ is updated.  Either way size_ increments.  The rvalue overload
PushBack(Type and-and) has the identical branch structure and capacity
arithmetic, with std::move in place of std::copy, so this one definition
models both overloads for a value element type. -/
def PushBack (v : SimpleVector T) (item : T) : SimpleVector T :=
  if v.size_ < v.capacity_ then
    { v with items_ := ⟨v.items_.data.set v.size_ item⟩, size_ := v.size_ + 1 }
  else
    { items_ := ⟨(copyFwd v.items_.data 0
        (ArrayPtr.create (max 1 (2 * v.capacity_)) : ArrayPtr T).data 0
        v.size_).set v.size_ item⟩,
      size_ := v.size_ + 1,
      capacity_ := max 1 (2 * v.capacity_) }

/-- True exactly when a PushBack issued in this state takes the
reallocating branch of the source (the branch condition is size_ <
capacity_; the source comment on that branch calls it the capacity
doubling). -/
def PushBackRealloc (v : SimpleVector T) : Bool :=
  !decide (v.size_ < v.capacity_)

/-- Insert(pos, const Type and value) with pos given as the index
std::distance(cbegin(), pos), precondition pos <= size_.  With spare
capacity std::copy_backward shifts the slots from pos through size_-1 one
slot up inside the buffer (back to front) and the value lands at pos.
Otherwise a buffer of max(1, 2 * capacity_) slots is allocated, std::copy
moves slots 0 through pos-1 over unshifted, std::copy_backward with
destination end size_+1 lands the size_-pos remaining slots at pos+1
through size_ (an inter-buffer copy, modelled forward), and the value
lands at pos.  Either way size_ increments.  The rvalue overload has the
identical structure with the move algorithms, so this one definition
models both overloads for a value element type. -/
def Insert (v : SimpleVector T) (pos : Nat) (value : T) : SimpleVector T :=
  if v.size_ < v.capacity_ then
    { v with
      items_ := ⟨(copyBwdSelf v.items_.data v.size_ (v.size_ + 1)
        (v.size_ - pos)).set pos value⟩,
      size_ := v.size_ + 1 }
  else
    { items_ := ⟨((copyFwd v.items_.data pos
        (copyFwd v.items_.data 0
          (ArrayPtr.create (max 1 (2 * v.capacity_)) : ArrayPtr T).data 0 pos)
        (pos + 1) (v.size_ - pos)).set pos value)⟩,
      size_ := v.size_ + 1,
      capacity_ := max 1 (2 * v.capacity_) }

/-- Erase(pos) with pos given as the index std::distance(begin(), pos),
precondition pos < size_: the range std::move shifts the size_-(pos+1)
slots after pos one slot toward the front (front to back inside the one
buffer), and size_ decrements. -/
def Erase (v : SimpleVector T) (pos : Nat) : SimpleVector T :=
  { v with
    items_ := ⟨copyFwdSelf v.items_.data (pos + 1) pos (v.size_ - (pos + 1))⟩,
    size_ := v.size_ - 1 }

/-- PopBack(): asserts non-emptiness, then erases at the last live index,
which the source reaches by advancing begin() by size_-1. -/
def PopBack (v : SimpleVector T) : SimpleVector T :=
  Erase v (v.size_ - 1)

/-- swap(other): the two containers exchange buffer, size and capacity
wholesale. -/
def swap (a b : SimpleVector T) : SimpleVector T × SimpleVector T :=
  (b, a)

/-- operator=(const SimpleVector and rhs), copy-and-swap: when this and
the right-hand side are different objects, a full copy of the right-hand
side is constructed and swapped into this; when they alias (self
assignment), the guard this != (address of rhs) fails and nothing runs.
Object identity is not observable on pure values, so the aliasing fact
enters as the flag aliased; a self assignment is the call with rhs = lhs
and aliased = true. -/
def copyAssign (lhs rhs : SimpleVector T) (aliased : Bool) : SimpleVector T :=
  if aliased then lhs else (swap lhs (copyCtor rhs)).1

end SimpleVector

/-- A sequence of PushBack calls, one per listed value, left to right. -/
def pushSeq (v : SimpleVector T) : List T → SimpleVector T
  | [] => v
  | x :: rest => pushSeq (v.PushBack x) rest

/-- True when no call of the PushBack sequence takes the reallocating
branch. -/
def pushSeqNoRealloc (v : SimpleVector T) : List T → Bool
  | [] => true
  | x :: rest => (!v.PushBackRealloc) && pushSeqNoRealloc (v.PushBack x) rest

open SimpleVector

/-- Reading a slot that was just written. -/
theorem getD_set_self (l : List T) (i : Nat) (a d : T) (h : i < l.length) :
    (l.set i a).getD i d = a := by
  rw [List.getD_eq_getElem?_getD, List.getElem?_set_self (by simpa using h)]
  rfl

/-- Reading a slot other than the one just written. -/
theorem getD_set_other (l : List T) (i j : Nat) (a d : T) (h : i ≠ j) :
    (l.set i a).getD j d = l.getD j d := by
  rw [List.getD_eq_getElem?_getD, List.getElem?_set_ne h, ← List.getD_eq_getElem?_getD]

/-- Reading a freshly allocated buffer. -/
theorem getD_replicate (n i : Nat) (a d : T) :
    (List.replicate n a).getD i d = if i < n then a else d := by
  rw [List.getD_eq_getElem?_getD, List.getElem?_replicate]
  split
  · rfl
  · rfl

/-- Writing never changes the allocated slot count. -/
theorem length_copyFwd (src : List T) (n : Nat) :
    ∀ (s d : Nat) (dst : List T), (copyFwd src s dst d n).length = dst.length := by
  induction n with
  | zero => intro s d dst; rfl
  | succ m ih =>
      intro s d dst
      rw [copyFwd, ih]
      exact List.length_set dst d _

/-- Writing never changes the allocated slot count. -/
theorem length_copyBwdSelf (n : Nat) :
    ∀ (buf : List T) (last dlast : Nat), (copyBwdSelf buf last dlast n).length = buf.length := by
  induction n with
  | zero => intro buf last dlast; rfl
  | succ m ih =>
      intro buf last dlast
      rw [copyBwdSelf, ih]
      exact List.length_set buf _ _

/-- Writing never changes the allocated slot count. -/
theorem length_copyFwdSelf (n : Nat) :
    ∀ (buf : List T) (s d : Nat), (copyFwdSelf buf s d n).length = buf.length := by
  induction n with
  | zero => intro buf s d; rfl
  | succ m ih =>
      intro buf s d
      rw [copyFwdSelf, ih]
      exact List.length_set buf d _

/-- Writing never changes the allocated slot count. -/
theorem length_fillFwd (x : T) (n : Nat) :
    ∀ (buf : List T) (d : Nat), (fillFwd buf d x n).length = buf.length := by
  induction n with
  | zero => intro buf d; rfl
  | succ m ih =>
      intro buf d
      rw [fillFwd, ih]
      exact List.length_set buf d _

/-- What an inter-buffer copy leaves in every slot: inside the written
window the value comes from the source at the matching offset, outside it
the destination is untouched.  Needs the window to fit the destination. -/
theorem copyFwd_getD (src : List T) (n : Nat) :
    ∀ (s d : Nat) (dst : List T), d + n ≤ dst.length →
    ∀ i, (copyFwd src s dst d n).getD i default =
      if d ≤ i ∧ i < d + n then src.getD (s + (i - d)) default
      else dst.getD i default := by
  induction n with
  | zero =>
      intro s d dst _ i
      rw [copyFwd, if_neg (by omega)]
  | succ m ih =>
      intro s d dst h i
      rw [copyFwd, ih (s + 1) (d + 1) _ (by rw [List.length_set]; omega)]
      by_cases h1 : d + 1 ≤ i ∧ i < d + 1 + m
      · rw [if_pos h1, if_pos (by omega)]
        congr 1
        omega
      · rw [if_neg h1]
        by_cases h2 : i = d
        · subst h2
          rw [if_pos (by omega), getD_set_self _ _ _ _ (by omega)]
          congr 1
          omega
        · rw [if_neg (by omega), getD_set_other _ _ _ _ _ (by omega)]

/-- What a fill loop leaves in every slot. -/
theorem fillFwd_getD (x : T) (n : Nat) :
    ∀ (d : Nat) (buf : List T), d + n ≤ buf.length →
    ∀ i, (fillFwd buf d x n).getD i default =
      if d ≤ i ∧ i < d + n then x else buf.getD i default := by
  induction n with
  | zero =>
      intro d buf _ i
      rw [fillFwd, if_neg (by omega)]
  | succ m ih =>
      intro d buf h i
      rw [fillFwd, ih (d + 1) _ (by rw [List.length_set]; omega)]
      by_cases h1 : d + 1 ≤ i ∧ i < d + 1 + m
      · rw [if_pos h1, if_pos (by omega)]
      · rw [if_neg h1]
        by_cases h2 : i = d
        · subst h2
          rw [if_pos (by omega), getD_set_self _ _ _ _ (by omega)]
        · rw [if_neg (by omega), getD_set_other _ _ _ _ _ (by omega)]

/-- What the in-buffer backward shift of Insert leaves in every slot: the
window from last-n+1 through last now holds what sat one slot lower, the
rest is untouched.  The count must fit under the shift origin and the top
slot written must exist. -/
theorem copyBwdSelf_getD (n : Nat) :
    ∀ (buf : List T) (last : Nat), n ≤ last → last < buf.length →
    ∀ i, (copyBwdSelf buf last (last + 1) n).getD i default =
      if last - n < i ∧ i ≤ last then buf.getD (i - 1) default
      else buf.getD i default := by
  induction n with
  | zero =>
      intro buf last _ _ i
      rw [copyBwdSelf, if_neg (by omega)]
  | succ m ih =>
      intro buf last hn hl i
      have hstep : copyBwdSelf buf last (last + 1) (m + 1) =
          copyBwdSelf (buf.set last (buf.getD (last - 1) default)) (last - 1) ((last - 1) + 1) m := by
        rw [copyBwdSelf]
        congr 2 <;> omega
      rw [hstep, ih _ (last - 1) (by omega) (by rw [List.length_set]; omega)]
      by_cases h1 : last - 1 - m < i ∧ i ≤ last - 1
      · rw [if_pos h1, if_pos (by omega), getD_set_other _ _ _ _ _ (by omega)]
      · rw [if_neg h1]
        by_cases h2 : i = last
        · subst h2
          rw [getD_set_self _ _ _ _ hl, if_pos (by omega)]
        · rw [getD_set_other _ _ _ _ _ (by omega), if_neg (by omega)]

/-- What the in-buffer forward shift of Erase leaves in every slot: the
window from d through d+n-1 now holds what sat one slot higher, the rest
is untouched.  The window and the slot above it must exist. -/
theorem copyFwdSelf_getD (n : Nat) :
    ∀ (buf : List T) (d : Nat), d + n ≤ buf.length →
    ∀ i, (copyFwdSelf buf (d + 1) d n).getD i default =
      if d ≤ i ∧ i < d + n then buf.getD (i + 1) default
      else buf.getD i default := by
  induction n with
  | zero =>
      intro buf d _ i
      rw [copyFwdSelf, if_neg (by omega)]
  | succ m ih =>
      intro buf d h i
      have hstep : copyFwdSelf buf (d + 1) d (m + 1) =
          copyFwdSelf (buf.set d (buf.getD (d + 1) default)) ((d + 1) + 1) (d + 1) m := by
        rw [copyFwdSelf]
      rw [hstep, ih _ (d + 1) (by rw [List.length_set]; omega)]
      by_cases h1 : d + 1 ≤ i ∧ i < d + 1 + m
      · rw [if_pos h1, if_pos (by omega), getD_set_other _ _ _ _ _ (by omega)]
      · rw [if_neg h1]
        by_cases h2 : i = d
        · subst h2
          rw [getD_set_self _ _ _ _ (by omega), if_pos (by omega)]
        · rw [getD_set_other _ _ _ _ _ (by omega), if_neg (by omega)]

/-- Two buffers agreeing on their first n slots read out the same
n-element sequence. -/
theorem readN_congr (n : Nat) (b1 b2 : List T)
    (h : ∀ i, i < n → b1.getD i default = b2.getD i default) :
    readN b1 n = readN b2 n := by
  induction n with
  | zero => rfl
  | succ m ih =>
      rw [readN, readN, ih (fun i hi => h i (by omega)), h m (by omega)]

/-- The capacity a PushBack leaves, read off the two branches. -/
theorem PushBack_capacity (v : SimpleVector T) (x : T) :
    (v.PushBack x).capacity_ =
      if v.size_ < v.capacity_ then v.capacity_ else max 1 (2 * v.capacity_) := by
  unfold SimpleVector.PushBack
  split <;> rfl

/-- The size a PushBack leaves: one more on either branch. -/
theorem PushBack_size (v : SimpleVector T) (x : T) :
    (v.PushBack x).size_ = v.size_ + 1 := by
  unfold SimpleVector.PushBack
  split <;> rfl

/-- The capacity an Insert leaves, read off the two branches. -/
theorem Insert_capacity (v : SimpleVector T) (p : Nat) (x : T) :
    (v.Insert p x).capacity_ =
      if v.size_ < v.capacity_ then v.capacity_ else max 1 (2 * v.capacity_) := by
  unfold SimpleVector.Insert
  split <;> rfl

/-- The capacity a growing Resize leaves. -/
theorem Resize_capacity_grow (v : SimpleVector T) (ns : Nat)
    (h1 : v.size_ ≤ v.capacity_) (h2 : v.capacity_ < ns) :
    (v.Resize ns).capacity_ = max ns (2 * v.capacity_) := by
  unfold SimpleVector.Resize
  rw [if_neg (by omega)]
  simp only
  rw [if_pos h2]

/-- The size and capacity a Reserve leaves: size untouched, capacity the
larger of the old capacity and the request. -/
theorem Reserve_size_capacity (v : SimpleVector T) (k : Nat) :
    (v.Reserve k).size_ = v.size_ ∧ (v.Reserve k).capacity_ = max v.capacity_ k := by
  unfold SimpleVector.Reserve
  split
  · exact ⟨rfl, by omega⟩
  · exact ⟨rfl, by simp only; omega⟩

/-- Everything Insert does at a valid position in a well-formed state
(buffer length = capacity, size <= capacity): size goes up one, the
buffer length still equals the recorded capacity, the new capacity admits
the new size, and slot by slot the prefix below the position is untouched,
the position holds the inserted value, and each slot above through the new
top holds what sat one slot lower. -/
theorem Insert_spec (v : SimpleVector T) (p : Nat) (x : T)
    (hlen : v.items_.data.length = v.capacity_) (hsz : v.size_ ≤ v.capacity_)
    (hp : p ≤ v.size_) :
    (v.Insert p x).size_ = v.size_ + 1 ∧
    (v.Insert p x).items_.data.length = (v.Insert p x).capacity_ ∧
    v.size_ + 1 ≤ (v.Insert p x).capacity_ ∧
    ∀ i, i ≤ v.size_ →
      (v.Insert p x).items_.data.getD i default =
        if i < p then v.items_.data.getD i default
        else if i = p then x
        else v.items_.data.getD (i - 1) default := by
  unfold SimpleVector.Insert
  by_cases hc : v.size_ < v.capacity_
  · rw [if_pos hc]
    refine ⟨rfl, ?_, ?_, ?_⟩
    · simp only [List.length_set, length_copyBwdSelf, hlen]
    · simpa using hc
    · intro i hi
      by_cases h2 : i = p
      · subst h2
        rw [getD_set_self _ _ _ _ (by rw [length_copyBwdSelf]; omega),
          if_neg (by omega), if_pos rfl]
      · rw [getD_set_other _ _ _ _ _ (by omega),
          copyBwdSelf_getD (v.size_ - p) _ v.size_ (by omega) (by omega) i]
        by_cases h3 : i < p
        · rw [if_neg (by omega), if_pos h3]
        · rw [if_pos (by omega), if_neg h3, if_neg h2]
  · rw [if_neg hc]
    have hfull : v.size_ = v.capacity_ := by omega
    have hcap : v.size_ + 1 ≤ max 1 (2 * v.capacity_) := by omega
    have hlen0 : (ArrayPtr.create (max 1 (2 * v.capacity_)) : ArrayPtr T).data.length =
        max 1 (2 * v.capacity_) := by
      simp [ArrayPtr.create]
    have hlen1 : (copyFwd v.items_.data 0
        (ArrayPtr.create (max 1 (2 * v.capacity_)) : ArrayPtr T).data 0 p).length =
        max 1 (2 * v.capacity_) := by
      rw [length_copyFwd, hlen0]
    refine ⟨rfl, ?_, hcap, ?_⟩
    · simp only [List.length_set, length_copyFwd, hlen1]
    · intro i hi
      by_cases h2 : i = p
      · subst h2
        rw [getD_set_self _ _ _ _ (by rw [length_copyFwd, hlen1]; omega),
          if_neg (by omega), if_pos rfl]
      · rw [getD_set_other _ _ _ _ _ (by omega),
          copyFwd_getD _ (v.size_ - p) p (p + 1) _ (by rw [hlen1]; omega) i]
        by_cases h3 : i < p
        · rw [if_neg (by omega),
            copyFwd_getD _ p 0 0 _ (by rw [hlen0]; omega) i,
            if_pos (by omega), if_pos h3]
          congr 1
          omega
        · rw [if_pos (by omega), if_neg h3, if_neg h2]
          congr 1
          omega

/-- Everything Erase does at a valid position in a well-formed state:
size goes down one, buffer length and capacity are untouched, and slot by
slot the window from the position through the new top holds what sat one
slot higher while everything else is untouched. -/
theorem Erase_spec (v : SimpleVector T) (p : Nat)
    (hlen : v.items_.data.length = v.capacity_) (hsz : v.size_ ≤ v.capacity_)
    (hp : p < v.size_) :
    (v.Erase p).size_ = v.size_ - 1 ∧
    (v.Erase p).capacity_ = v.capacity_ ∧
    (v.Erase p).items_.data.length = v.capacity_ ∧
    ∀ i, (v.Erase p).items_.data.getD i default =
      if p ≤ i ∧ i < v.size_ - 1 then v.items_.data.getD (i + 1) default
      else v.items_.data.getD i default := by
  unfold SimpleVector.Erase
  refine ⟨rfl, rfl, ?_, ?_⟩
  · simp only [length_copyFwdSelf, hlen]
  · intro i
    rw [copyFwdSelf_getD (v.size_ - (p + 1)) _ p (by omega) i]
    by_cases h1 : p ≤ i ∧ i < v.size_ - 1
    · rw [if_pos (by omega), if_pos h1]
    · rw [if_neg (by omega), if_neg h1]

example : (fromList [1, 2, 3] : SimpleVector Nat).elems = [1, 2, 3] := by decide
example : ((fromList [1, 2, 3] : SimpleVector Nat).PushBack 4).capacity_ = 6 := by decide
example : ((fromList [1, 2, 3] : SimpleVector Nat).PushBack 4).elems = [1, 2, 3, 4] := by decide
example : ((fromList [1, 2, 3] : SimpleVector Nat).Insert 1 9).elems = [1, 9, 2, 3] := by decide
example : (((fromList [1, 2, 3] : SimpleVector Nat).Insert 1 9).Erase 1).elems = [1, 2, 3] := by decide
example : ((fromList [1, 2, 3] : SimpleVector Nat).Erase 1).elems = [1, 3] := by decide
example : ((mkEmpty : SimpleVector Nat).PushBack 1).capacity_ = 1 := by decide
example :
    (PopBack ((mkEmpty : SimpleVector Nat).PushBack 1 |>.PushBack 2)).capacity_ = 2 := by decide
example :
    (copyCtor (PopBack ((mkEmpty : SimpleVector Nat).PushBack 1 |>.PushBack 2))).capacity_ = 2 := by
  decide
example :
    (copyCtor (PopBack ((mkEmpty : SimpleVector Nat).PushBack 1 |>.PushBack 2))).items_.data.length
      = 1 := by decide
example :
    (((mkEmpty : SimpleVector Nat).PushBack 7).Clear.Resize 1).elemAt 0 = 7 := by decide

/-- A run of PushBack calls that fits inside the starting capacity never
takes the reallocating branch, adds one to the size per call, and leaves
the capacity untouched. -/
theorem pushSeq_within_capacity (xs : List T) :
    ∀ v : SimpleVector T, v.size_ + xs.length ≤ v.capacity_ →
    pushSeqNoRealloc v xs = true ∧
    (pushSeq v xs).size_ = v.size_ + xs.length ∧
    (pushSeq v xs).capacity_ = v.capacity_ := by
  induction xs with
  | nil =>
      intro v h
      exact ⟨rfl, by simp [pushSeq], by simp [pushSeq]⟩
  | cons x rest ih =>
      intro v h
      have hlt : v.size_ < v.capacity_ := by
        simp only [List.length_cons] at h
        omega
      have hsize := PushBack_size v x
      have hcap := PushBack_capacity v x
      rw [if_pos hlt] at hcap
      obtain ⟨ha, hb, hc⟩ := ih (v.PushBack x) (by
        simp only [List.length_cons] at h
        omega)
      refine ⟨?_, ?_, ?_⟩
      · rw [pushSeqNoRealloc, ha]
        simp [SimpleVector.PushBackRealloc, hlt]
      · rw [pushSeq, hb, hsize]
        simp only [List.length_cons]
        omega
      · rw [pushSeq, hc, hcap]

/-- Claim C1 (code_bug record): copy construction from a source whose
capacity exceeds its size.  The source, reached by two PushBack calls and
one PopBack, has size 1 and capacity 2.  The copy gets the right size, an
exact-size one-slot allocation and the copied element, but its recorded
capacity is the capacity of the source, 2, not the source size 1 the claim
states, and not the one slot its own buffer was allocated with. -/
theorem copy_ctor_capacity_bug :
    (PopBack ((mkEmpty : SimpleVector Nat).PushBack 1 |>.PushBack 2)).size_ = 1 ∧
    (PopBack ((mkEmpty : SimpleVector Nat).PushBack 1 |>.PushBack 2)).capacity_ = 2 ∧
    (copyCtor (PopBack ((mkEmpty : SimpleVector Nat).PushBack 1 |>.PushBack 2))).size_ = 1 ∧
    (copyCtor (PopBack ((mkEmpty : SimpleVector Nat).PushBack 1 |>.PushBack 2))).capacity_ = 2 ∧
    (copyCtor (PopBack ((mkEmpty : SimpleVector Nat).PushBack 1
      |>.PushBack 2))).items_.data.length = 1 ∧
    elems (copyCtor (PopBack ((mkEmpty : SimpleVector Nat).PushBack 1 |>.PushBack 2))) = [1] := by
  decide

/-- Claim C2 (code_bug record): the invariant that the recorded capacity
equals the allocated slot count of the owned buffer holds in the reachable
state of size 1 and capacity 2, and the copy constructor breaks it: the
copy records capacity 2 over a buffer allocated with 1 slot. -/
theorem copy_ctor_invariant_bug :
    (PopBack ((mkEmpty : SimpleVector Nat).PushBack 1 |>.PushBack 2)).items_.data.length =
      (PopBack ((mkEmpty : SimpleVector Nat).PushBack 1 |>.PushBack 2)).capacity_ ∧
    (copyCtor (PopBack ((mkEmpty : SimpleVector Nat).PushBack 1
      |>.PushBack 2))).items_.data.length ≠
      (copyCtor (PopBack ((mkEmpty : SimpleVector Nat).PushBack 1 |>.PushBack 2))).capacity_ := by
  decide

/-- Claim C3: constructing from a capacity hint wrapping n gives an empty
container (size 0) whose capacity is at least n; the reserving call made
during construction mutates the instance being constructed, because inside
the constructor body the unqualified name resolves to the member Reserve
applied to this. -/
theorem reserve_ctor_spec (n : Nat) :
    (fromReserveProxy (ReserveFree n) : SimpleVector T).GetSize = 0 ∧
    n ≤ (fromReserveProxy (ReserveFree n) : SimpleVector T).GetCapacity := by
  obtain ⟨hs, hc⟩ := Reserve_size_capacity (mkEmpty : SimpleVector T) n
  constructor
  · show (Reserve (mkEmpty : SimpleVector T) n).size_ = 0
    rw [hs]
    rfl
  · show n ≤ (Reserve (mkEmpty : SimpleVector T) n).capacity_
    rw [hc]
    have h0 : (mkEmpty : SimpleVector T).capacity_ = 0 := rfl
    omega

/-- Claim C4: whenever PushBack, Insert or Resize must exceed the current
capacity (for PushBack and Insert this is the state size = capacity, where
the required minimum size+1 first exceeds the capacity; for Resize any
well-formed state with newSize above the capacity), the new capacity is
max(requiredMinimum, 2 * currentCapacity), and from capacity 0 it is
exactly max(1, requiredMinimum). -/
theorem growth_rule (v w : SimpleVector T) (x y : T) (p ns : Nat)
    (hv : v.size_ = v.capacity_) (hw : w.size_ ≤ w.capacity_) (hns : w.capacity_ < ns) :
    (v.PushBack x).capacity_ = max (v.size_ + 1) (2 * v.capacity_) ∧
    (v.Insert p y).capacity_ = max (v.size_ + 1) (2 * v.capacity_) ∧
    (w.Resize ns).capacity_ = max ns (2 * w.capacity_) ∧
    (v.capacity_ = 0 →
      (v.PushBack x).capacity_ = max 1 (v.size_ + 1) ∧
      (v.Insert p y).capacity_ = max 1 (v.size_ + 1)) ∧
    (w.capacity_ = 0 → (w.Resize ns).capacity_ = max 1 ns) := by
  have h1 := PushBack_capacity v x
  have h2 := Insert_capacity v p y
  have h3 := Resize_capacity_grow w ns hw hns
  rw [if_neg (by omega)] at h1
  rw [if_neg (by omega)] at h2
  exact ⟨by omega, by omega, by omega,
    fun h0 => ⟨by omega, by omega⟩, fun h0 => by omega⟩

/-- Witness for C4 at concrete inputs: the empty container (size =
capacity = 0) for the PushBack and Insert clauses, a full two-element
container with newSize 5 for the Resize clause. -/
theorem growth_rule_witness :
    (mkEmpty : SimpleVector Nat).size_ = (mkEmpty : SimpleVector Nat).capacity_ ∧
    (fromList [1, 2] : SimpleVector Nat).size_ ≤ (fromList [1, 2] : SimpleVector Nat).capacity_ ∧
    (fromList [1, 2] : SimpleVector Nat).capacity_ < 5 ∧
    (((mkEmpty : SimpleVector Nat).PushBack 7).capacity_ =
        max ((mkEmpty : SimpleVector Nat).size_ + 1) (2 * (mkEmpty : SimpleVector Nat).capacity_) ∧
      ((mkEmpty : SimpleVector Nat).Insert 0 7).capacity_ =
        max ((mkEmpty : SimpleVector Nat).size_ + 1) (2 * (mkEmpty : SimpleVector Nat).capacity_) ∧
      ((fromList [1, 2] : SimpleVector Nat).Resize 5).capacity_ =
        max 5 (2 * (fromList [1, 2] : SimpleVector Nat).capacity_) ∧
      ((mkEmpty : SimpleVector Nat).capacity_ = 0 →
        ((mkEmpty : SimpleVector Nat).PushBack 7).capacity_ =
          max 1 ((mkEmpty : SimpleVector Nat).size_ + 1) ∧
        ((mkEmpty : SimpleVector Nat).Insert 0 7).capacity_ =
          max 1 ((mkEmpty : SimpleVector Nat).size_ + 1)) ∧
      ((fromList [1, 2] : SimpleVector Nat).capacity_ = 0 →
        ((fromList [1, 2] : SimpleVector Nat).Resize 5).capacity_ = max 1 5)) :=
  ⟨by decide, by decide, by decide,
    growth_rule mkEmpty (fromList [1, 2]) 7 7 0 5 (by decide) (by decide) (by decide)⟩

/-- Claim C5 (code_bug record): Resize above the current size is
documented (by the claim and by the comment above Resize in the source) to
default-initialize every slot between the old and the new size.  After
PushBack(7), Clear(), Resize(1) the slot at index 0 lies in that window
but still holds the stale value 7, not the default value 0. -/
theorem resize_stale_value_bug :
    (((mkEmpty : SimpleVector Nat).PushBack 7).Clear.Resize 1).size_ = 1 ∧
    (((mkEmpty : SimpleVector Nat).PushBack 7).Clear.Resize 1).elemAt 0 = 7 ∧
    (default : Nat) = 0 := by
  decide

/-- Counterexample to claim C6 as stated: the container holding one element
with capacity 1 (one PushBack from empty) and k = 1 satisfies k at least
the capacity at call time, yet Reserve(1) followed by the single PushBack
of the sequence [2] takes the reallocating branch. -/
theorem reserve_then_push_counterexample :
    ((mkEmpty : SimpleVector Nat).PushBack 1).capacity_ ≤ 1 ∧
    pushSeqNoRealloc (((mkEmpty : SimpleVector Nat).PushBack 1).Reserve 1) [2] = false := by
  decide

/-- Claim C6 as amended: for every container of size 0 and every k at
least the capacity at call time, Reserve(k) followed by k PushBack calls
never takes the reallocating branch, and after any prefix of those calls
the capacity is still at least k. -/
theorem reserve_then_push_no_realloc (v : SimpleVector T) (k j : Nat) (xs : List T)
    (hempty : v.size_ = 0) (hk : v.capacity_ ≤ k) (hlen : xs.length = k) :
    pushSeqNoRealloc (v.Reserve k) xs = true ∧
    k ≤ (pushSeq (v.Reserve k) (xs.take j)).capacity_ := by
  obtain ⟨hrs, hrc⟩ := Reserve_size_capacity v k
  have hcapk : (v.Reserve k).capacity_ = k := by omega
  have hsz0 : (v.Reserve k).size_ = 0 := by omega
  constructor
  · exact (pushSeq_within_capacity xs _ (by rw [hsz0, hcapk, hlen]; omega)).1
  · have hcap := (pushSeq_within_capacity (xs.take j) _ (by
      rw [hsz0, hcapk, List.length_take, hlen]
      omega)).2.2
    omega

/-- Witness for the amended C6: the empty container, k = 2, the pushes
[5, 6], observed after the prefix of length 1. -/
theorem reserve_then_push_no_realloc_witness :
    (mkEmpty : SimpleVector Nat).size_ = 0 ∧
    (mkEmpty : SimpleVector Nat).capacity_ ≤ 2 ∧
    ([5, 6] : List Nat).length = 2 ∧
    (pushSeqNoRealloc ((mkEmpty : SimpleVector Nat).Reserve 2) [5, 6] = true ∧
      2 ≤ (pushSeq ((mkEmpty : SimpleVector Nat).Reserve 2) (([5, 6] : List Nat).take 1)).capacity_) :=
  ⟨by decide, by decide, by decide,
    reserve_then_push_no_realloc mkEmpty 2 1 [5, 6] (by decide) (by decide) (by decide)⟩

/-- Claim C7: in every well-formed state (buffer length = capacity, size
at most capacity) and at every valid position p at most the size, Insert
of a value at p followed by Erase at p restores the original size and the
original element sequence. -/
theorem insert_erase_roundtrip (v : SimpleVector T) (p : Nat) (x : T)
    (hlen : v.items_.data.length = v.capacity_) (hsz : v.size_ ≤ v.capacity_)
    (hp : p ≤ v.size_) :
    ((v.Insert p x).Erase p).size_ = v.size_ ∧
    elems ((v.Insert p x).Erase p) = elems v := by
  obtain ⟨hs1, hl1, hc1, hchar1⟩ := Insert_spec v p x hlen hsz hp
  obtain ⟨hs2, hc2, hl2, hchar2⟩ :=
    Erase_spec (v.Insert p x) p hl1 (by omega) (by omega)
  constructor
  · rw [hs2, hs1]
    omega
  · show readN ((v.Insert p x).Erase p).items_.data ((v.Insert p x).Erase p).size_ =
      readN v.items_.data v.size_
    rw [hs2, hs1, Nat.add_sub_cancel]
    apply readN_congr
    intro i hi
    rw [hchar2 i]
    by_cases h1 : p ≤ i
    · rw [if_pos (by omega), hchar1 (i + 1) (by omega), if_neg (by omega),
        if_neg (by omega), Nat.add_sub_cancel]
    · rw [if_neg (by omega), hchar1 i (by omega), if_pos (by omega)]

/-- Witness for C7: the three-element container [1, 2, 3] (which is full,
so the Insert takes the reallocating branch), position 1, value 9. -/
theorem insert_erase_roundtrip_witness :
    (fromList [1, 2, 3] : SimpleVector Nat).items_.data.length =
      (fromList [1, 2, 3] : SimpleVector Nat).capacity_ ∧
    (fromList [1, 2, 3] : SimpleVector Nat).size_ ≤
      (fromList [1, 2, 3] : SimpleVector Nat).capacity_ ∧
    1 ≤ (fromList [1, 2, 3] : SimpleVector Nat).size_ ∧
    ((((fromList [1, 2, 3] : SimpleVector Nat).Insert 1 9).Erase 1).size_ =
        (fromList [1, 2, 3] : SimpleVector Nat).size_ ∧
      elems (((fromList [1, 2, 3] : SimpleVector Nat).Insert 1 9).Erase 1) =
        elems (fromList [1, 2, 3] : SimpleVector Nat)) :=
  ⟨by decide, by decide, by decide,
    insert_erase_roundtrip (fromList [1, 2, 3]) 1 9 (by decide) (by decide) (by decide)⟩

/-- Claim C8: the checked accessor At returns the live element exactly
when the index is below the size and fails with the OutOfRange error
exactly when it is not; being a read, it leaves the container as it is
(the model of At is a pure function of the container). -/
theorem at_checked_access (v : SimpleVector T) (i : Nat) :
    v.At i = if i < v.GetSize then Except.ok (v.elemAt i)
      else Except.error AtError.outOfRange := by
  unfold SimpleVector.At SimpleVector.elemAt
  by_cases h : v.GetSize ≤ i
  · rw [if_pos h, if_neg (by omega)]
  · rw [if_neg h, if_pos (by omega)]

/-- Claim C9: move construction hands the destination exactly the prior
size, capacity and element sequence of the source, and leaves the source
in the empty state with size 0 and capacity 0 (and no buffer). -/
theorem move_ctor_spec (s : SimpleVector T) :
    (moveCtor s).1.size_ = s.size_ ∧
    (moveCtor s).1.capacity_ = s.capacity_ ∧
    elems (moveCtor s).1 = elems s ∧
    (moveCtor s).2.size_ = 0 ∧
    (moveCtor s).2.capacity_ = 0 :=
  ⟨rfl, rfl, rfl, rfl, rfl⟩

/-- Claim C10: self assignment is a no-op: the aliasing guard of
operator= fails on this = (address of rhs), so size, capacity and the
element sequence are all as before. -/
theorem self_assignment_noop (v : SimpleVector T) :
    (copyAssign v v true).size_ = v.size_ ∧
    (copyAssign v v true).capacity_ = v.capacity_ ∧
    elems (copyAssign v v true) = elems v :=
  ⟨rfl, rfl, rfl⟩

end SimpleVectorModel
